import Mathlib

/-!
# Bookmark manager — reconciliation logic, shallow embedding

Shallow embedding of the client-side list-reconciliation logic of
`src/app/dashboard/page.tsx` (the dashboard page of the bookmark manager).

Modelling conventions:
* JS strings (titles, URLs) are `List Char`; `trim` and `startsWith`
  mirror `String.prototype.trim` / `String.prototype.startsWith`.
* The store-assigned `id` (a uuid string in the code) and the
  store-assigned `created_at` timestamp are modelled as `Nat`: the code
  uses only equality on `id` and the store's ordering on `created_at`.
* Asynchronous store round trips are modelled by passing the store's
  reply as an explicit argument (`Option …`, `none` = error reply).
* React state updates `setBookmarks (current => …)` become pure
  functions `List Bookmark → List Bookmark`.
-/

namespace BookmarkManager

/-- `String.prototype.trim`: remove leading and trailing whitespace. -/
def trim (s : List Char) : List Char :=
  ((s.dropWhile Char.isWhitespace).reverse.dropWhile Char.isWhitespace).reverse

/-- `String.prototype.startsWith`: does `s` begin with `p`? -/
def startsWith (s p : List Char) : Bool :=
  p.isPrefixOf s

/-- The `Bookmark` record of `src/lib/supabase.ts`:
`{ id: string, user_id: string, title: string, url: string, created_at: string }`.
`id` and `user_id` are opaque identifiers and `created_at` an ordered
timestamp, all modelled as `Nat`; see the module docstring. -/
structure Bookmark where
  id : Nat
  user_id : Nat
  title : List Char
  url : List Char
  created_at : Nat
deriving DecidableEq, Repr

/-- URL normalization inside `handleAddBookmark`
(`src/app/dashboard/page.tsx` lines 157–160):
```js
let validUrl = url.trim()
if (!validUrl.startsWith('http://') && !validUrl.startsWith('https://')) {
  validUrl = 'https://' + validUrl
}
``` -/
def normalizeUrl (url : List Char) : List Char :=
  let validUrl := trim url
  if startsWith validUrl ("http://".data) || startsWith validUrl ("https://".data) then
    validUrl
  else
    ("https://".data) ++ validUrl

/-- The events that mutate the in-memory bookmark list, one per
`setBookmarks` call site in `src/app/dashboard/page.tsx`. -/
inductive Event where
  /-- the store-confirmation step of `handleAddBookmark` (line 180):
  `setBookmarks((current) => [newBookmark, ...current])` -/
  | confirmAdd (b : Bookmark)
  /-- the realtime INSERT handler (lines 113–122) -/
  | remoteInsert (b : Bookmark)
  /-- the realtime DELETE handler (lines 131–137) -/
  | remoteDelete (b : Bookmark)
  /-- the optimistic removal in `handleDeleteBookmark` (lines 197–199) -/
  | localDelete (i : Nat)
  /-- a successful `fetchBookmarks` (line 91): `setBookmarks(data || [])` -/
  | resync (records : List Bookmark)
deriving DecidableEq, Repr

/-- One `setBookmarks` transition of the in-memory list, per call site:
* `confirmAdd b` — `[newBookmark, ...current]` (unconditional prepend);
* `remoteInsert b` — `current.some((item) => item.id === next.id) ? current
  : [next, ...current]`;
* `remoteDelete b` — `current.filter((bookmark) => bookmark.id !== deleted.id)`;
* `localDelete i` — `current.filter((item) => item.id !== id)`;
* `resync records` — `setBookmarks(data || [])`, wholesale replacement. -/
def step (list : List Bookmark) : Event → List Bookmark
  | .confirmAdd b => b :: list
  | .remoteInsert b =>
      if list.any (fun item => item.id == b.id) then list else b :: list
  | .remoteDelete b => list.filter (fun bookmark => bookmark.id != b.id)
  | .localDelete i => list.filter (fun item => item.id != i)
  | .resync records => records

/-- Run a sequence of events from a starting list. -/
def run (list : List Bookmark) (es : List Event) : List Bookmark :=
  es.foldl step list

/-- Environment assumptions on a single event, reflecting what the
backend guarantees: the store never confirms an insert with an `id` it
already handed out (ids are a primary key, assigned fresh at creation),
and an authoritative resync set has pairwise-distinct ids. Realtime
events carry no assumption. -/
def eventOk (list : List Bookmark) : Event → Prop
  | .confirmAdd b => ∀ x ∈ list, x.id ≠ b.id
  | .resync records => (records.map Bookmark.id).Nodup
  | _ => True

/-- `eventOk` holding along a whole run. -/
def runOk (list : List Bookmark) : List Event → Prop
  | [] => True
  | e :: es => eventOk list e ∧ runOk (step list e) es

/-- The ordering invariant claimed by the spec: `created_at` descending
(newest first), ties allowed in any order. -/
def sortedByCreatedAtDesc (list : List Bookmark) : Prop :=
  list.Pairwise (fun a b => b.created_at ≤ a.created_at)

/-- `fetchBookmarks` (`src/app/dashboard/page.tsx` lines 80–95): ask the
store for all rows ordered by `created_at` descending and replace the
list; on error (or exception) return early, leaving the list unchanged
and raising no alert ("Silent failure"). `result` is the store's reply
(`none` = error); the `Bool` records whether an alert was raised. -/
def fetchBookmarks (result : Option (List Bookmark)) (list : List Bookmark) :
    List Bookmark × Bool :=
  match result with
  | none => (list, false)
  | some data => (data, false)

/-- The synchronous phase of `handleAddBookmark` (lines 149–163), up to
the point where the insert request is issued: validate that trimmed
title and URL are non-empty (alert and return otherwise), normalize the
URL. The bookmark list is not touched. Returns the (unchanged) list and
the URL submitted to the store (`none` when validation fails). -/
def handleAddBookmarkSync (title url : List Char) (list : List Bookmark) :
    List Bookmark × Option (List Char) :=
  if (trim title).isEmpty || (trim url).isEmpty then
    (list, none)
  else
    (list, some (normalizeUrl url))

/-- Full `handleAddBookmark` flow (lines 149–190). `storeResult` is the
reply of `insert(...).select()`: `none` = error, `some data` = the
returned rows (the code prepends `data[0]` only when `data.length > 0`).
Returns the final list and whether an alert was raised. -/
def handleAddBookmark (title url : List Char) (storeResult : Option (List Bookmark))
    (list : List Bookmark) : List Bookmark × Bool :=
  if (trim title).isEmpty || (trim url).isEmpty then
    (list, true)
  else
    match storeResult with
    | none => (list, true)
    | some [] => (list, false)
    | some (newBookmark :: _) => (newBookmark :: list, false)

/-- The synchronous phase of `handleDeleteBookmark` (lines 197–199):
optimistic removal before the durable-delete request is issued:
`setBookmarks((current) => current.filter((item) => item.id !== id))`. -/
def handleDeleteBookmarkSync (i : Nat) (list : List Bookmark) : List Bookmark :=
  list.filter (fun item => item.id != i)

/-- Full `handleDeleteBookmark` flow (lines 195–215): optimistic removal,
then the durable delete; on store error, `await fetchBookmarks()` with
the store's current reply `storeData`, then alert. Returns the final
list and whether an alert was raised. -/
def handleDeleteBookmark (i : Nat) (deleteOk : Bool)
    (storeData : Option (List Bookmark)) (list : List Bookmark) :
    List Bookmark × Bool :=
  let optimistic := handleDeleteBookmarkSync i list
  if deleteOk then
    (optimistic, false)
  else
    ((fetchBookmarks storeData optimistic).1, true)

end BookmarkManager

namespace BookmarkManager

/-! ## Helper lemmas -/

/-- A single `setBookmarks` transition preserves id-uniqueness, under the
environment assumptions `eventOk` (fresh confirmed ids, duplicate-free
resync sets). -/
theorem step_nodup_ids {list : List Bookmark} {e : Event}
    (hnd : (list.map Bookmark.id).Nodup) (hok : eventOk list e) :
    ((step list e).map Bookmark.id).Nodup := by
  cases e with
  | confirmAdd b =>
      rw [show step list (Event.confirmAdd b) = b :: list from rfl,
        List.map_cons, List.nodup_cons]
      refine ⟨fun hmem => ?_, hnd⟩
      rcases List.mem_map.mp hmem with ⟨x, hx, hxid⟩
      exact hok x hx hxid
  | remoteInsert b =>
      cases hb : list.any (fun item => item.id == b.id) with
      | true => simpa [step, hb] using hnd
      | false =>
          have hfresh := List.any_eq_false.mp hb
          have hstep : step list (Event.remoteInsert b) = b :: list := by
            simp [step, hb]
          rw [hstep, List.map_cons, List.nodup_cons]
          refine ⟨fun hmem => ?_, hnd⟩
          rcases List.mem_map.mp hmem with ⟨x, hx, hxid⟩
          exact hfresh x hx (beq_iff_eq.mpr hxid)
  | remoteDelete b =>
      exact (((List.filter_sublist list).map Bookmark.id).nodup) hnd
  | localDelete i =>
      exact (((List.filter_sublist list).map Bookmark.id).nodup) hnd
  | resync records =>
      exact hok

/-- A whole run of `setBookmarks` transitions preserves id-uniqueness. -/
theorem run_nodup_ids {list : List Bookmark} {es : List Event}
    (hnd : (list.map Bookmark.id).Nodup) (hok : runOk list es) :
    ((run list es).map Bookmark.id).Nodup := by
  induction es generalizing list with
  | nil => simpa [run] using hnd
  | cons e es ih =>
      rcases hok with ⟨h1, h2⟩
      exact ih (step_nodup_ids hnd h1) h2

/-! ## Claims -/

/-- C1 (amended): across every sequence of list transitions in which the
store confirms inserts only with ids not already listed and resyncs carry
duplicate-free record sets, the list never holds two entries with the
same id; and a store-confirmed add followed by the realtime echo of the
same id leaves exactly one entry with that id. (The unamended claim is
refuted by `uniqueIds_counterexample`: the confirmation step prepends
unconditionally, so an echo that arrives first produces a duplicate.) -/
theorem uniqueIds_amended (list : List Bookmark) (es : List Event) (b : Bookmark)
    (hnd : (list.map Bookmark.id).Nodup) (hok : runOk list es)
    (hfresh : ∀ x ∈ list, x.id ≠ b.id) :
    ((run list es).map Bookmark.id).Nodup ∧
    ((step (step list (.confirmAdd b)) (.remoteInsert b)).filter
        (fun x => x.id == b.id)).length = 1 := by
  refine ⟨run_nodup_ids hnd hok, ?_⟩
  have h1 : step list (Event.confirmAdd b) = b :: list := rfl
  have h2 : step (b :: list) (Event.remoteInsert b) = b :: list := by
    simp [step]
  rw [h1, h2, List.filter_cons_of_pos (by simp)]
  have hnil : list.filter (fun x => x.id == b.id) = [] := by
    rw [List.filter_eq_nil_iff]
    intro x hx h
    exact hfresh x hx (beq_iff_eq.mp h)
  simp [hnil]

/-- C1 witness: the empty start, a confirmed add of id 42 followed by its
realtime echo. -/
theorem uniqueIds_amended_witness :
    ((run [] [.confirmAdd ⟨42, 1, [], [], 100⟩,
        .remoteInsert ⟨42, 1, [], [], 100⟩]).map Bookmark.id).Nodup ∧
    ((step (step [] (.confirmAdd (⟨42, 1, [], [], 100⟩ : Bookmark)))
        (.remoteInsert ⟨42, 1, [], [], 100⟩)).filter
        (fun x => x.id == (⟨42, 1, [], [], 100⟩ : Bookmark).id)).length = 1 :=
  uniqueIds_amended [] [.confirmAdd ⟨42, 1, [], [], 100⟩, .remoteInsert ⟨42, 1, [], [], 100⟩]
    ⟨42, 1, [], [], 100⟩ (by simp) (by simp [runOk, eventOk]) (by simp)

/-- C1 counterexample: if the realtime echo of an insert arrives before
the store confirmation (a race the claim's "every sequence" includes),
the confirmation step's unconditional prepend duplicates the id. -/
theorem uniqueIds_counterexample :
    ¬ ((run [] [.remoteInsert ⟨42, 1, [], [], 100⟩,
        .confirmAdd ⟨42, 1, [], [], 100⟩]).map Bookmark.id).Nodup := by
  decide

/-- C2 (amended): `mergeRemoteInsert` of a record whose id is not yet
present prepends it at the head of the list — not at the
`createdAt`-sorted position — so descending order is preserved only when
each merged or confirmed record is at least as recent as every entry
currently listed. (The unamended claim is refuted by
`sortedDesc_counterexample`: an out-of-order remote insert lands at the
head and breaks descending order.) -/
theorem mergeRemoteInsert_prepends (b : Bookmark) (list : List Bookmark)
    (hfresh : list.all (fun item => item.id != b.id) = true)
    (hsorted : sortedByCreatedAtDesc list)
    (hnewest : ∀ x ∈ list, x.created_at ≤ b.created_at) :
    step list (.remoteInsert b) = b :: list ∧
    sortedByCreatedAtDesc (step list (.remoteInsert b)) ∧
    sortedByCreatedAtDesc (step list (.confirmAdd b)) := by
  have hany : list.any (fun item => item.id == b.id) = false := by
    rw [List.any_eq_false]
    intro x hx hbeq
    exact bne_iff_ne.mp (List.all_eq_true.mp hfresh x hx) (beq_iff_eq.mp hbeq)
  have h1 : step list (Event.remoteInsert b) = b :: list := by
    simp [step, hany]
  have hcons : sortedByCreatedAtDesc (b :: list) := by
    rw [sortedByCreatedAtDesc, List.pairwise_cons]
    exact ⟨hnewest, hsorted⟩
  exact ⟨h1, h1 ▸ hcons, hcons⟩

/-- C2 witness: merging a strictly newer record into a sorted singleton. -/
theorem mergeRemoteInsert_prepends_witness :
    step [⟨1, 1, [], [], 5⟩] (.remoteInsert ⟨2, 1, [], [], 10⟩)
      = (⟨2, 1, [], [], 10⟩ : Bookmark) :: [⟨1, 1, [], [], 5⟩] ∧
    sortedByCreatedAtDesc (step [⟨1, 1, [], [], 5⟩] (.remoteInsert ⟨2, 1, [], [], 10⟩)) ∧
    sortedByCreatedAtDesc (step [⟨1, 1, [], [], 5⟩] (.confirmAdd ⟨2, 1, [], [], 10⟩)) :=
  mergeRemoteInsert_prepends ⟨2, 1, [], [], 10⟩ [⟨1, 1, [], [], 5⟩]
    (by decide) (by unfold sortedByCreatedAtDesc; decide) (by decide)

/-- C2 counterexample: two remote merges from the empty list, the second
carrying an older `created_at` (10 then 5); the handler prepends the
older record at the head, so the list is not sorted descending. -/
theorem sortedDesc_counterexample :
    ¬ sortedByCreatedAtDesc
        (run [] [.remoteInsert ⟨1, 1, [], [], 10⟩, .remoteInsert ⟨2, 1, [], [], 5⟩]) := by
  unfold sortedByCreatedAtDesc
  decide

/-- C3 (amended): `handleAddBookmark` performs no synchronous provisional
insert — the list is untouched (though the URL is normalized) until the
store confirms, at which point the confirmed record is prepended at the
head. (The unamended claim is refuted by
`submitAdd_no_provisional_counterexample`: from the empty list the
synchronous phase leaves the list empty, not one provisional entry.) -/
theorem submitAdd_confirm_prepends (title url : List Char) (list : List Bookmark)
    (b : Bookmark) (rest : List Bookmark)
    (htitle : (trim title).isEmpty = false) (hurl : (trim url).isEmpty = false) :
    handleAddBookmarkSync title url list = (list, some (normalizeUrl url)) ∧
    handleAddBookmark title url (some (b :: rest)) list = (b :: list, false) := by
  constructor
  · simp [handleAddBookmarkSync, htitle, hurl]
  · simp [handleAddBookmark, htitle, hurl]

/-- C3 witness: `submitAdd("Example", "example.com")` from the empty
list leaves the list empty before confirmation, submits target
`https://example.com`, and prepends the store's record on confirmation. -/
theorem submitAdd_confirm_prepends_witness :
    handleAddBookmarkSync ("Example".data) ("example.com".data) []
      = ([], some ("https://example.com".data)) ∧
    handleAddBookmark ("Example".data) ("example.com".data)
        (some [⟨42, 1, "Example".data, "https://example.com".data, 100⟩]) []
      = ([⟨42, 1, "Example".data, "https://example.com".data, 100⟩], false) := by
  have h := submitAdd_confirm_prepends ("Example".data) ("example.com".data) []
    ⟨42, 1, "Example".data, "https://example.com".data, 100⟩ [] (by decide) (by decide)
  exact ⟨h.1.trans (by decide), h.2⟩

/-- C3 counterexample: the claimed provisional entry does not exist — the
synchronous phase of `handleAddBookmark` on the empty list yields a list
of length 0, not 1. -/
theorem submitAdd_no_provisional_counterexample :
    ((handleAddBookmarkSync ("Example".data) ("example.com".data) []).1).length ≠ 1 := by
  decide

/-- C4: `mergeRemoteInsert` is idempotent — applying it twice yields the
same list as applying it once, for every record and list — and when the
list already contains the record's id it is a no-op. -/
theorem mergeRemoteInsert_idempotent (r : Bookmark) (list : List Bookmark) :
    step (step list (.remoteInsert r)) (.remoteInsert r) = step list (.remoteInsert r) ∧
    (list.any (fun item => item.id == r.id) = true → step list (.remoteInsert r) = list) := by
  refine ⟨?_, fun h => by simp [step, h]⟩
  cases hb : list.any (fun item => item.id == r.id) with
  | true => simp [step, hb]
  | false =>
      have hstep : step list (Event.remoteInsert r) = r :: list := by
        simp [step, hb]
      rw [hstep]
      simp [step]

/-- C4 witness: inserting id 3 into a list already holding id 3. -/
theorem mergeRemoteInsert_idempotent_witness :
    step (step [⟨3, 1, [], [], 7⟩] (.remoteInsert ⟨3, 1, [], [], 7⟩)) (.remoteInsert ⟨3, 1, [], [], 7⟩)
      = step [⟨3, 1, [], [], 7⟩] (.remoteInsert ⟨3, 1, [], [], 7⟩) ∧
    step [⟨3, 1, [], [], 7⟩] (.remoteInsert (⟨3, 1, [], [], 7⟩ : Bookmark)) = [⟨3, 1, [], [], 7⟩] :=
  ⟨(mergeRemoteInsert_idempotent ⟨3, 1, [], [], 7⟩ [⟨3, 1, [], [], 7⟩]).1,
   (mergeRemoteInsert_idempotent ⟨3, 1, [], [], 7⟩ [⟨3, 1, [], [], 7⟩]).2 (by decide)⟩

/-- C5: `mergeRemoteDelete` on a list not containing the record's id is a
no-op; and `submitDelete(id)` followed by `mergeRemoteDelete` of the same
id leaves the list exactly as it was right after the optimistic removal. -/
theorem mergeRemoteDelete_noop (r : Bookmark) (list : List Bookmark) :
    (list.all (fun item => item.id != r.id) = true → step list (.remoteDelete r) = list) ∧
    step (step list (.localDelete r.id)) (.remoteDelete r) = step list (.localDelete r.id) := by
  constructor
  · intro h
    exact List.filter_eq_self.mpr (List.all_eq_true.mp h)
  · show (List.filter _ (List.filter _ list)) = List.filter _ list
    rw [List.filter_filter]
    simp

/-- C5 witness: deleting id 3 remotely from a list holding only id 4, and
the optimistic-delete-then-echo sequence on that list. -/
theorem mergeRemoteDelete_noop_witness :
    step [⟨4, 1, [], [], 7⟩] (.remoteDelete (⟨3, 1, [], [], 2⟩ : Bookmark)) = [⟨4, 1, [], [], 7⟩] ∧
    step (step [⟨4, 1, [], [], 7⟩] (.localDelete (⟨3, 1, [], [], 2⟩ : Bookmark).id))
        (.remoteDelete ⟨3, 1, [], [], 2⟩)
      = step [⟨4, 1, [], [], 7⟩] (.localDelete (⟨3, 1, [], [], 2⟩ : Bookmark).id) :=
  ⟨(mergeRemoteDelete_noop ⟨3, 1, [], [], 2⟩ [⟨4, 1, [], [], 7⟩]).1 (by decide),
   (mergeRemoteDelete_noop ⟨3, 1, [], [], 2⟩ [⟨4, 1, [], [], 7⟩]).2⟩

/-- C6: when the durable delete fails, `handleDeleteBookmark` re-fetches
and the list is replaced wholesale by the store's authoritative record
set — no partial undo — and the failure is surfaced (alert); in
particular a list holding id 9 whose delete fails ends with id 9
restored from the store's set. -/
theorem submitDelete_failure_resync (i : Nat) (records list : List Bookmark) :
    handleDeleteBookmark i false (some records) list = (records, true) ∧
    handleDeleteBookmark 9 false (some [⟨9, 1, [], [], 5⟩]) [⟨9, 1, [], [], 5⟩]
      = ([⟨9, 1, [], [], 5⟩], true) :=
  ⟨rfl, rfl⟩

/-- C7: the submitted URL always carries a scheme prefix — `normalizeUrl`
yields a string starting with `http://` or `https://` for every input —
and `example.com` is normalized to `https://example.com`. -/
theorem normalizeUrl_has_scheme (url : List Char) :
    (startsWith (normalizeUrl url) ("http://".data) = true ∨
     startsWith (normalizeUrl url) ("https://".data) = true) ∧
    normalizeUrl ("example.com".data) = ("https://example.com".data) := by
  refine ⟨?_, by decide⟩
  by_cases h : (startsWith (trim url) ("http://".data)
      || startsWith (trim url) ("https://".data)) = true
  · have hval : normalizeUrl url = trim url := by
      simp only [normalizeUrl]
      rw [if_pos h]
    rw [hval]
    simpa using h
  · have hval : normalizeUrl url = ("https://".data) ++ trim url := by
      simp only [normalizeUrl]
      rw [if_neg h]
    rw [hval]
    right
    rw [startsWith]
    exact List.isPrefixOf_iff_prefix.mpr (List.prefix_append _ _)

/-- C8: the optimistic removal of `handleDeleteBookmark` keeps exactly
the entries whose id differs from the deleted one, it is the list state
in force before (and, on success, after) the durable-delete round trip,
and deleting an id not present leaves the list unchanged. -/
theorem submitDelete_optimistic (i : Nat) (list : List Bookmark)
    (storeData : Option (List Bookmark)) :
    (∀ x, x ∈ handleDeleteBookmarkSync i list ↔ x ∈ list ∧ x.id ≠ i) ∧
    handleDeleteBookmark i true storeData list = (handleDeleteBookmarkSync i list, false) ∧
    (list.all (fun item => item.id != i) = true → handleDeleteBookmarkSync i list = list) := by
    refine ⟨fun x => ?_, rfl, fun h => List.filter_eq_self.mpr (List.all_eq_true.mp h)⟩
    simp [handleDeleteBookmarkSync, List.mem_filter]

/-- C8 witness: deleting id 7 from a list holding only id 8 is a no-op,
and the success path returns the optimistic list with no alert. -/
theorem submitDelete_optimistic_witness :
    handleDeleteBookmarkSync 7 [⟨8, 1, [], [], 3⟩] = [⟨8, 1, [], [], 3⟩] ∧
    handleDeleteBookmark 7 true none [⟨8, 1, [], [], 3⟩]
      = (handleDeleteBookmarkSync 7 [⟨8, 1, [], [], 3⟩], false) :=
  ⟨(submitDelete_optimistic 7 [⟨8, 1, [], [], 3⟩] none).2.2 (by decide),
   (submitDelete_optimistic 7 [⟨8, 1, [], [], 3⟩] none).2.1⟩

/-- C9: only the two literal prefixes `http://` and `https://` are
recognized; any trimmed URL starting with neither — `ftp://host`,
`mailto:x`, … — is submitted as `https://` concatenated with the trimmed
input. -/
theorem normalizeUrl_only_two_schemes (url : List Char)
    (h1 : startsWith (trim url) ("http://".data) = false)
    (h2 : startsWith (trim url) ("https://".data) = false) :
    normalizeUrl url = ("https://".data) ++ trim url := by
  simp only [normalizeUrl]
  rw [if_neg]
  rw [h1, h2]
  simp

/-- C9 witness: `ftp://host` is submitted as `https://ftp://host`. -/
theorem normalizeUrl_only_two_schemes_witness :
    normalizeUrl ("ftp://host".data) = ("https://ftp://host".data) :=
  (normalizeUrl_only_two_schemes ("ftp://host".data) (by decide) (by decide)).trans (by decide)

/-- C10: a failed `fetchBookmarks` leaves the list completely unchanged
and raises no alert; consequently a failed delete whose recovery
re-fetch also fails keeps the optimistically filtered list, in which no
entry carries the deleted id. -/
theorem fetchBookmarks_error_silent (i : Nat) (list : List Bookmark) :
    fetchBookmarks none list = (list, false) ∧
    handleDeleteBookmark i false none list = (handleDeleteBookmarkSync i list, true) ∧
    (handleDeleteBookmarkSync i list).all (fun item => item.id != i) = true := by
  refine ⟨rfl, rfl, ?_⟩
  rw [List.all_eq_true]
  intro x hx
  exact (List.mem_filter.mp hx).2
